import Mathlib

/-!
Verification of `src/examples/show_pixel_info.py`.

The script opens an image file with the external codec (PIL), reads its
`width` and `height`, iterates `for y in range(height): for x in range(width)`,
unpacks `r, g, b = image.getpixel((x, y))` at each coordinate,
and prints `Pixel at (x, y) - R: r, G: g, B: b`.

Shallow embedding: an `Image` is its dimensions together with the codec's
pixel-access capability; `getpixel` returns `none` when pixel access itself
fails (the spec's `PixelAccessError`) and otherwise the channel tuple, whose
arity depends on the image's color mode (three for RGB, four for RGBA, one
for grayscale).  The run is modelled as the list of loop iterations that
executed `print`, each carrying the loop's local variables, plus the error
that stopped the run, if any.
-/

set_option autoImplicit false

namespace ShowPixelInfo

/-- The decoded image as the script sees it: `image.size` and the
`getpixel` capability of the codec collaborator.  `getpixel` returns the
dynamically-shaped channel tuple, or `none` when pixel access fails. -/
structure Image where
  width : Nat
  height : Nat
  getpixel : Nat × Nat → Option (List Nat)

/-- Modelled from the spec: the reasons `open` can fail (path does not
exist, unreadable, content not a supported image format).  `Image.open`
itself is the external codec collaborator, not code of this repository. -/
inductive OpenFailure
  | noSuchFile
  | unreadable
  | unsupportedFormat
deriving DecidableEq

/-- The errors the run can stop with: the open step raising (spec:
`DecodeError`), `getpixel` failing at a coordinate (spec:
`PixelAccessError`), or the tuple unpacking `r, g, b = ...` failing
because the pixel tuple does not have exactly three components. -/
inductive ProgError
  | decodeError (f : OpenFailure)
  | pixelAccessError (x y : Nat)
  | unpackError (x y arity : Nat)
deriving DecidableEq

/-- One executed loop iteration: the loop variables `x`, `y` and the
unpacked channel values `r`, `g`, `b` at the moment `print` ran. -/
structure Report where
  x : Nat
  y : Nat
  r : Nat
  g : Nat
  b : Nat
deriving DecidableEq

/-- The text printed by `print(f"Pixel at (\x7bx\x7d, \x7by\x7d) - R: \x7br\x7d, G: \x7bg\x7d, B: \x7bb\x7d")`. -/
def pixelLine (x y r g b : Nat) : String :=
  "Pixel at (" ++ toString x ++ ", " ++ toString y ++ ") - R: " ++
    toString r ++ ", G: " ++ toString g ++ ", B: " ++ toString b

/-- The line a report prints. -/
def Report.line (p : Report) : String :=
  pixelLine p.x p.y p.r p.g p.b

/-- The coordinate sequence produced by
`for y in range(height): for x in range(width)` with the inner loop
yielding `(x, y)` pairs. -/
def coordsOf (width height : Nat) : List (Nat × Nat) :=
  (List.range height).flatMap (fun y => (List.range width).map (fun x => (x, y)))

/-- The coordinates the script's nested loops visit, in order. -/
def coords (img : Image) : List (Nat × Nat) :=
  coordsOf img.width img.height

/-- One loop body at coordinate `c`:
`r, g, b = image.getpixel((x, y))` followed by the `print`.
Fails when `getpixel` fails, or when the returned tuple does not have
exactly three components to unpack. -/
def step (img : Image) (c : Nat × Nat) : Except ProgError Report :=
  match img.getpixel c with
  | none => .error (.pixelAccessError c.1 c.2)
  | some [r, g, b] => .ok ⟨c.1, c.2, r, g, b⟩
  | some chs => .error (.unpackError c.1 c.2 chs.length)

/-- Run the loop body over a coordinate list: the reports printed, in
order, and the error that stopped the run, if any.  An error ends the
run at once; everything printed before it stays. -/
def reportFrom (img : Image) : List (Nat × Nat) → List Report × Option ProgError
  | [] => ([], none)
  | c :: rest =>
    match step img c with
    | .error e => ([], some e)
    | .ok p =>
      let r := reportFrom img rest
      (p :: r.1, r.2)

/-- The whole iteration of the script after a successful open. -/
def iterate_and_report (img : Image) : List Report × Option ProgError :=
  reportFrom img (coords img)

/-- The lines written to standard output, in order. -/
def stdoutLines (img : Image) : List String :=
  (iterate_and_report img).1.map Report.line

/-- The full script, given the outcome of `Image.open("pic2.jpg")`
(the open step is the external codec collaborator): on open failure
nothing is printed and the run ends with the decode error; otherwise
the nested loops run. -/
def show_pixel_info (o : Except OpenFailure Image) : List String × Option ProgError :=
  match o with
  | .error f => ([], some (.decodeError f))
  | .ok img => (stdoutLines img, (iterate_and_report img).2)

/-- The loop with the `image` binding threaded as state: the body reads
`image.getpixel` and prints, and never rebinds or mutates `image`. -/
def runLoop (img : Image) : List (Nat × Nat) → Image × List Report × Option ProgError
  | [] => (img, [], none)
  | c :: rest =>
    match step img c with
    | .error e => (img, [], some e)
    | .ok p =>
      let r := runLoop img rest
      (r.1, p :: r.2.1, r.2.2)

/-- The coordinates at which the loop actually calls `getpixel`, in
order: one call per iteration reached, including the failing one. -/
def accessesFrom (img : Image) : List (Nat × Nat) → List (Nat × Nat)
  | [] => []
  | c :: rest =>
    match step img c with
    | .error _ => [c]
    | .ok _ => c :: accessesFrom img rest

/-- Row-major strict precedence on coordinates: earlier row, or same row
and smaller column. -/
def rowMajorLt (a b : Nat × Nat) : Prop :=
  a.2 < b.2 ∨ (a.2 = b.2 ∧ a.1 < b.1)

/-- The report a successful step produces (junk value on a failing
step; used only to describe outputs of steps known to succeed). -/
def okReport (img : Image) (c : Nat × Nat) : Report :=
  match step img c with
  | .ok p => p
  | .error _ => ⟨0, 0, 0, 0, 0⟩

/-- The line a successful step prints. -/
def okLine (img : Image) (c : Nat × Nat) : String :=
  (okReport img c).line

/-! ### Basic lemmas about the coordinate enumeration -/

theorem coordsOf_succ (W H : Nat) :
    coordsOf W (H + 1) = coordsOf W H ++ (List.range W).map (fun x => (x, H)) := by
  simp [coordsOf, List.range_succ]

theorem mem_coordsOf {W H : Nat} {p : Nat × Nat} :
    p ∈ coordsOf W H ↔ p.1 < W ∧ p.2 < H := by
  constructor
  · intro h
    simp only [coordsOf, List.mem_flatMap, List.mem_map, List.mem_range] at h
    obtain ⟨y, hy, x, hx, rfl⟩ := h
    exact ⟨hx, hy⟩
  · rintro ⟨hx, hy⟩
    simp only [coordsOf, List.mem_flatMap, List.mem_map, List.mem_range]
    exact ⟨p.2, hy, p.1, hx, rfl⟩

theorem pairwise_coordsOf (W H : Nat) : List.Pairwise rowMajorLt (coordsOf W H) := by
  induction H with
  | zero => simp [coordsOf]
  | succ H ih =>
    rw [coordsOf_succ, List.pairwise_append]
    refine ⟨ih, ?_, ?_⟩
    · rw [List.pairwise_map]
      exact (List.pairwise_lt_range W).imp (fun h => Or.inr ⟨rfl, h⟩)
    · intro a ha b hb
      have hya : a.2 < H := (mem_coordsOf.mp ha).2
      have hyb : b.2 = H := by
        obtain ⟨x, _, rfl⟩ := List.mem_map.mp hb
        rfl
      exact Or.inl (hyb ▸ hya)

theorem nodup_coordsOf (W H : Nat) : (coordsOf W H).Nodup :=
  (pairwise_coordsOf W H).imp (fun h => by
    rintro rfl
    rcases h with h | ⟨_, h⟩ <;> exact absurd h (lt_irrefl _))

theorem length_coordsOf (W H : Nat) : (coordsOf W H).length = H * W := by
  induction H with
  | zero => simp [coordsOf]
  | succ H ih => rw [coordsOf_succ, List.length_append, ih]; simp [Nat.succ_mul]

theorem coordsOf_width_zero (H : Nat) : coordsOf 0 H = [] := by
  induction H with
  | zero => simp [coordsOf]
  | succ H ih => rw [coordsOf_succ, ih]; simp

/-! ### Lemmas about one loop body -/

theorem step_of_rgb {img : Image} {c : Nat × Nat} {r g b : Nat}
    (h : img.getpixel c = some [r, g, b]) :
    step img c = .ok ⟨c.1, c.2, r, g, b⟩ := by
  simp [step, h]

theorem step_of_none {img : Image} {c : Nat × Nat}
    (h : img.getpixel c = none) :
    step img c = .error (.pixelAccessError c.1 c.2) := by
  simp [step, h]

theorem step_of_bad_arity {img : Image} {c : Nat × Nat} {chs : List Nat}
    (h : img.getpixel c = some chs) (hlen : chs.length ≠ 3) :
    step img c = .error (.unpackError c.1 c.2 chs.length) := by
  match chs, hlen with
  | [], _ => simp [step, h]
  | [a], _ => simp [step, h]
  | [a, b], _ => simp [step, h]
  | [a, b, c], hlen => exact absurd rfl hlen
  | a :: b :: c :: d :: t, _ => simp [step, h]

theorem step_ok_inv {img : Image} {c : Nat × Nat} {p : Report}
    (h : step img c = .ok p) :
    p.x = c.1 ∧ p.y = c.2 ∧ img.getpixel c = some [p.r, p.g, p.b] := by
  revert h
  unfold step
  cases hg : img.getpixel c with
  | none => intro h; exact absurd h (by simp)
  | some chs =>
    match chs with
    | [] => intro h; exact absurd h (by simp)
    | [a] => intro h; exact absurd h (by simp)
    | [a, b] => intro h; exact absurd h (by simp)
    | [r, g, b] =>
      intro h
      cases Except.ok.inj h
      exact ⟨rfl, rfl, rfl⟩
    | a :: b :: c :: d :: t => intro h; exact absurd h (by simp)

theorem step_isOk_exists {img : Image} {c : Nat × Nat}
    (h : (step img c).isOk = true) : ∃ p, step img c = .ok p := by
  cases hs : step img c with
  | error e => rw [hs] at h; exact absurd h (by simp [Except.isOk, Except.toBool])
  | ok p => exact ⟨p, rfl⟩

/-! ### Lemmas about the run -/

theorem reportFrom_all_ok {img : Image} : ∀ {cs : List (Nat × Nat)},
    (∀ c ∈ cs, (step img c).isOk = true) →
    reportFrom img cs = (cs.map (okReport img), none)
  | [], _ => rfl
  | c :: rest, h => by
    obtain ⟨p, hp⟩ := step_isOk_exists (h c (List.mem_cons_self c rest))
    have ih := reportFrom_all_ok (fun c' hc' => h c' (List.mem_cons_of_mem c hc'))
    simp only [reportFrom, hp, ih, List.map_cons, okReport]

theorem reportFrom_fail {img : Image} {c : Nat × Nat} {l2 l1 : List (Nat × Nat)}
    {e : ProgError} (hfail : step img c = .error e)
    (h : ∀ c' ∈ l1, (step img c').isOk = true) :
    reportFrom img (l1 ++ c :: l2) = (l1.map (okReport img), some e) := by
  induction l1 with
  | nil => simp [reportFrom, hfail]
  | cons c' l1 ih =>
    obtain ⟨p, hp⟩ := step_isOk_exists (h c' (List.mem_cons_self c' l1))
    have ih2 := ih (fun c'' hc'' => h c'' (List.mem_cons_of_mem c' hc''))
    simp only [List.cons_append, reportFrom, hp, List.append_eq, ih2, List.map_cons, okReport]

theorem runLoop_image {img : Image} : ∀ (cs : List (Nat × Nat)),
    (runLoop img cs).1 = img
  | [] => rfl
  | c :: rest => by
    simp only [runLoop]
    cases step img c with
    | error e => rfl
    | ok p => exact runLoop_image rest

theorem accessesFrom_all_ok {img : Image} : ∀ {cs : List (Nat × Nat)},
    (∀ c ∈ cs, (step img c).isOk = true) →
    accessesFrom img cs = cs
  | [], _ => rfl
  | c :: rest, h => by
    obtain ⟨p, hp⟩ := step_isOk_exists (h c (List.mem_cons_self c rest))
    have ih := accessesFrom_all_ok (fun c' hc' => h c' (List.mem_cons_of_mem c hc'))
    simp only [accessesFrom, hp, ih]

theorem reportFrom_congr {img1 img2 : Image} : ∀ {cs : List (Nat × Nat)},
    (∀ c ∈ cs, step img1 c = step img2 c) →
    reportFrom img1 cs = reportFrom img2 cs
  | [], _ => rfl
  | c :: rest, h => by
    have hc := h c (List.mem_cons_self c rest)
    have ih := reportFrom_congr (fun c' hc' => h c' (List.mem_cons_of_mem c hc'))
    simp only [reportFrom, hc, ih]

theorem mem_reportFrom {img : Image} : ∀ {cs : List (Nat × Nat)} {p : Report},
    p ∈ (reportFrom img cs).1 → ∃ c ∈ cs, step img c = .ok p
  | [], _, h => absurd h (by simp [reportFrom])
  | c :: rest, p, h => by
    revert h
    simp only [reportFrom]
    cases hs : step img c with
    | error e => intro h; exact absurd h (by simp)
    | ok q =>
      intro h
      rcases List.mem_cons.mp h with rfl | h
      · exact ⟨c, List.mem_cons_self c rest, hs⟩
      · obtain ⟨c', hc', hs'⟩ := mem_reportFrom h
        exact ⟨c', List.mem_cons_of_mem c hc', hs'⟩

theorem coordsOf_height_zero (W : Nat) : coordsOf W 0 = [] := by
  simp [coordsOf]

theorem count_eq_one_of_mem_nodup {l : List (Nat × Nat)} {p : Nat × Nat}
    (hd : l.Nodup) (hm : p ∈ l) : l.count p = 1 := by
  induction l with
  | nil => cases hm
  | cons a l ih =>
    rw [List.count_cons]
    rcases List.mem_cons.mp hm with rfl | hm2
    · rw [List.count_eq_zero_of_not_mem (List.nodup_cons.mp hd).1]
      simp
    · have ha : a ∉ l := (List.nodup_cons.mp hd).1
      have hne : (a == p) = false := beq_false_of_ne (by
        rintro rfl
        exact ha hm2)
      rw [ih (List.nodup_cons.mp hd).2 hm2, hne]
      simp

theorem coordsOf_head (W H : Nat) (hW : 0 < W) (hH : 0 < H) :
    ∃ rest, coordsOf W H = (0, 0) :: rest := by
  cases W with
  | zero => exact absurd hW (lt_irrefl 0)
  | succ W2 =>
    cases H with
    | zero => exact absurd hH (lt_irrefl 0)
    | succ H2 =>
      rw [coordsOf, List.range_succ_eq_map, List.flatMap_cons, List.range_succ_eq_map,
        List.map_cons, List.cons_append]
      exact ⟨_, rfl⟩

/-! ### Concrete images used as witnesses -/

/-- A 1×1 RGB image whose single pixel has channel values (255, 128, 0). -/
def oneByOne : Image :=
  { width := 1, height := 1, getpixel := fun _ => some [255, 128, 0] }

/-- Modelled from the spec: a 1×1 image opened in a mode carrying a
transparency channel (RGBA); per the spec's design notes the codec opens
such files and its pixel-access call returns four values per pixel. -/
def rgbaImage : Image :=
  { width := 1, height := 1, getpixel := fun _ => some [10, 20, 30, 40] }

/-- Modelled from the spec: a 1×1 image opened in a single-channel
grayscale mode; per the spec's design notes the pixel-access call
returns one value per pixel. -/
def grayImage : Image :=
  { width := 1, height := 1, getpixel := fun _ => some [7] }

/-- A 2×2 image whose pixel access fails at (1, 0) and succeeds elsewhere. -/
def failAtImage : Image :=
  { width := 2, height := 2,
    getpixel := fun c => if c = (1, 0) then none else some [1, 2, 3] }

/-- An image reporting width 0. -/
def zeroWidthImage : Image :=
  { width := 0, height := 3, getpixel := fun _ => some [1, 2, 3] }

/-- Same dimensions and in-range pixel data as `oneByOne`, but a pixel
capability that differs outside the image bounds. -/
def oneByOneJunk : Image :=
  { width := 1, height := 1,
    getpixel := fun c => if c = (0, 0) then some [255, 128, 0] else none }

/-! ### The claims -/

/-- C1: the sequence of (x, y) pairs appearing in the output, in order,
is exactly the row-major order — y ascending outer, x ascending inner —
and every in-range coordinate appears exactly once. -/
theorem C1_row_major_order (img : Image) (p : Nat × Nat)
    (hok : ∀ c ∈ coords img, (step img c).isOk = true) :
    (iterate_and_report img).1.map (fun q => (q.x, q.y)) = coords img ∧
    (p ∈ coords img ↔ p.1 < img.width ∧ p.2 < img.height) ∧
    List.Pairwise rowMajorLt (coords img) ∧
    (coords img).count p =
      (if p.1 < img.width ∧ p.2 < img.height then 1 else 0) := by
  refine ⟨?_, mem_coordsOf, pairwise_coordsOf _ _, ?_⟩
  · rw [iterate_and_report, reportFrom_all_ok hok, List.map_map]
    have h : ∀ c ∈ coords img, ((fun q : Report => (q.x, q.y)) ∘ okReport img) c = c := by
      intro c hc
      obtain ⟨q, hq⟩ := step_isOk_exists (hok c hc)
      obtain ⟨hx, hy, _⟩ := step_ok_inv hq
      simp [Function.comp, okReport, hq, hx, hy]
    rw [List.map_congr_left h, List.map_id']
  · by_cases hin : p.1 < img.width ∧ p.2 < img.height
    · rw [if_pos hin]
      exact count_eq_one_of_mem_nodup (nodup_coordsOf _ _) (mem_coordsOf.mpr hin)
    · rw [if_neg hin]
      exact List.count_eq_zero_of_not_mem (fun hmem => hin (mem_coordsOf.mp hmem))

/-- C1 witness: the 1×1 image with one successfully read pixel. -/
theorem C1_row_major_order_witness :
    (iterate_and_report oneByOne).1.map (fun q => (q.x, q.y)) = coords oneByOne ∧
    ((0, 0) ∈ coords oneByOne ↔ (0, 0).1 < oneByOne.width ∧ (0, 0).2 < oneByOne.height) ∧
    List.Pairwise rowMajorLt (coords oneByOne) ∧
    (coords oneByOne).count (0, 0) =
      (if (0, 0).1 < oneByOne.width ∧ (0, 0).2 < oneByOne.height then 1 else 0) :=
  C1_row_major_order oneByOne (0, 0) (by decide)

/-- C2: each visited pixel produces exactly one line of the literal form
`Pixel at (x, y) - R: r, G: g, B: b` with the decimal values substituted
verbatim; the 1×1 image with channels (255, 128, 0) yields exactly the
line `Pixel at (0, 0) - R: 255, G: 128, B: 0`. -/
theorem C2_line_format (img : Image) (x y r g b : Nat)
    (h : img.getpixel (x, y) = some [r, g, b]) :
    step img (x, y) = .ok ⟨x, y, r, g, b⟩ ∧
    okLine img (x, y) = pixelLine x y r g b ∧
    stdoutLines oneByOne = ["Pixel at (0, 0) - R: 255, G: 128, B: 0"] := by
  refine ⟨step_of_rgb h, ?_, ?_⟩
  · simp [okLine, okReport, step_of_rgb h, Report.line]
  · rfl

/-- C2 witness: the 1×1 image with channels (255, 128, 0). -/
theorem C2_line_format_witness :
    step oneByOne (0, 0) = .ok ⟨0, 0, 255, 128, 0⟩ ∧
    okLine oneByOne (0, 0) = pixelLine 0 0 255 128 0 ∧
    stdoutLines oneByOne = ["Pixel at (0, 0) - R: 255, G: 128, B: 0"] :=
  C2_line_format oneByOne 0 0 255 128 0 rfl

/-- C3: when every pixel access succeeds, the number of output lines is
exactly width * height. -/
theorem C3_line_count (img : Image)
    (hok : ∀ c ∈ coords img, (step img c).isOk = true) :
    (stdoutLines img).length = img.width * img.height := by
  rw [stdoutLines, iterate_and_report, reportFrom_all_ok hok]
  simp only [List.length_map, coords, length_coordsOf]
  exact Nat.mul_comm _ _

/-- C3 witness: the 1×1 image. -/
theorem C3_line_count_witness :
    (stdoutLines oneByOne).length = oneByOne.width * oneByOne.height :=
  C3_line_count oneByOne (by decide)

/-- C4 counterexample: on a successfully opened image whose pixels carry
four channels (RGBA), the failure is a per-pixel unpacking error raised
during iteration at coordinate (0, 0) — not a `DecodeError` at open
time, contrary to the claim. -/
theorem C4_counterexample :
    show_pixel_info (.ok rgbaImage) = ([], some (ProgError.unpackError 0 0 4)) := by
  rfl

/-- C4 (amended): for every successfully opened non-empty image whose
pixel tuples do not have exactly three channels, the run fails with a
per-pixel unpacking error at the first visited coordinate (0, 0) during
iteration, with zero lines printed — not with a `DecodeError` at open
time. -/
theorem C4_per_pixel_unpack_failure (img : Image) (chs : List Nat)
    (hW : 0 < img.width) (hH : 0 < img.height)
    (h0 : img.getpixel (0, 0) = some chs) (hlen : chs.length ≠ 3) :
    show_pixel_info (.ok img) = ([], some (ProgError.unpackError 0 0 chs.length)) := by
  have hfail : step img (0, 0) = .error (.unpackError 0 0 chs.length) :=
    step_of_bad_arity h0 hlen
  obtain ⟨rest, hrest⟩ := coordsOf_head img.width img.height hW hH
  have hrun : reportFrom img ((0, 0) :: rest) =
      ([], some (ProgError.unpackError 0 0 chs.length)) := by
    simp only [reportFrom]
    rw [hfail]
  have hiter : iterate_and_report img = ([], some (ProgError.unpackError 0 0 chs.length)) := by
    rw [iterate_and_report, coords, hrest]
    exact hrun
  show (stdoutLines img, (iterate_and_report img).2) = _
  rw [stdoutLines, hiter]
  rfl

/-- C4 witness: the 1×1 single-channel grayscale image — open succeeds,
the run dies unpacking the 1-tuple at (0, 0). -/
theorem C4_per_pixel_unpack_failure_witness :
    show_pixel_info (.ok grayImage) = ([], some (ProgError.unpackError 0 0 1)) :=
  C4_per_pixel_unpack_failure grayImage [7] (by decide) (by decide) rfl (by decide)

/-- C5: when pixel access fails at a coordinate after a successful open,
the run stops there — no retry, no skip — the error is the one raised
there, and the lines already printed are exactly those of the
coordinates visited before it, in order. -/
theorem C5_halt_no_rollback (img : Image) (l1 l2 : List (Nat × Nat))
    (c : Nat × Nat) (e : ProgError)
    (hsplit : coords img = l1 ++ c :: l2)
    (hok : ∀ c' ∈ l1, (step img c').isOk = true)
    (hfail : step img c = .error e) :
    (iterate_and_report img).2 = some e ∧
    (iterate_and_report img).1 = l1.map (okReport img) ∧
    stdoutLines img = l1.map (okLine img) := by
  have h : reportFrom img (l1 ++ c :: l2) = (l1.map (okReport img), some e) :=
    reportFrom_fail hfail hok
  refine ⟨?_, ?_, ?_⟩
  · rw [iterate_and_report, hsplit, h]
  · rw [iterate_and_report, hsplit, h]
  · rw [stdoutLines, iterate_and_report, hsplit, h]
    simp [okLine, List.map_map, Function.comp]

/-- C5 witness: the 2×2 image failing at (1, 0) prints the (0, 0) line,
stops with the pixel-access error at (1, 0), and prints nothing more. -/
theorem C5_halt_no_rollback_witness :
    (iterate_and_report failAtImage).2 = some (ProgError.pixelAccessError 1 0) ∧
    (iterate_and_report failAtImage).1 = [(0, 0)].map (okReport failAtImage) ∧
    stdoutLines failAtImage = [(0, 0)].map (okLine failAtImage) :=
  C5_halt_no_rollback failAtImage [(0, 0)] [(0, 1), (1, 1)] (1, 0)
    (ProgError.pixelAccessError 1 0) (by decide) (by decide) rfl

/-- C6: when the open step fails, the run ends with a `DecodeError` and
zero lines of pixel output are emitted. -/
theorem C6_decode_error_no_output (f : OpenFailure) :
    show_pixel_info (.error f) = ([], some (ProgError.decodeError f)) :=
  rfl

/-- C7: the output is a deterministic function of the decoded image's
dimensions and in-range pixel data alone — two images agreeing on those
produce byte-identical output, so two runs on the same unmodified file do. -/
theorem C7_deterministic_output (img1 img2 : Image)
    (hw : img1.width = img2.width) (hh : img1.height = img2.height)
    (hp : ∀ x y, x < img1.width → y < img1.height →
      img1.getpixel (x, y) = img2.getpixel (x, y)) :
    stdoutLines img1 = stdoutLines img2 ∧
    show_pixel_info (.ok img1) = show_pixel_info (.ok img2) := by
  have hcoords : coords img1 = coords img2 := by
    rw [coords, coords, hw, hh]
  have hstep : ∀ c ∈ coords img1, step img1 c = step img2 c := by
    intro c hc
    have hmem := mem_coordsOf.mp hc
    have hg : img1.getpixel c = img2.getpixel c := by
      have h := hp c.1 c.2 hmem.1 hmem.2
      simpa using h
    simp only [step, hg]
  have hrep : iterate_and_report img1 = iterate_and_report img2 := by
    rw [iterate_and_report, iterate_and_report, ← hcoords]
    exact reportFrom_congr hstep
  constructor
  · rw [stdoutLines, stdoutLines, hrep]
  · rw [show_pixel_info, show_pixel_info, stdoutLines, stdoutLines, hrep]

/-- C7 witness: two images with the same dimensions and the same
in-range pixel, differing out of range, give identical output. -/
theorem C7_deterministic_output_witness :
    stdoutLines oneByOne = stdoutLines oneByOneJunk ∧
    show_pixel_info (.ok oneByOne) = show_pixel_info (.ok oneByOneJunk) :=
  C7_deterministic_output oneByOne oneByOneJunk rfl rfl (by
    intro x y hx hy
    obtain rfl := Nat.lt_one_iff.mp hx
    obtain rfl := Nat.lt_one_iff.mp hy
    decide)

/-- C8: for an 8-bit-per-channel image — every channel value the codec
returns is at most 255 — every r, g, b value emitted in the output lies
in [0, 255] (the lower bound is inherent, the values being naturals). -/
theorem C8_channel_range (img : Image) (p : Report)
    (h8 : ∀ c chs, img.getpixel c = some chs → ∀ v ∈ chs, v ≤ 255)
    (hp : p ∈ (iterate_and_report img).1) :
    p.r ≤ 255 ∧ p.g ≤ 255 ∧ p.b ≤ 255 := by
  obtain ⟨c, _, hs⟩ := mem_reportFrom hp
  obtain ⟨_, _, hg⟩ := step_ok_inv hs
  have h := h8 c [p.r, p.g, p.b] hg
  exact ⟨h p.r (by simp), h p.g (by simp), h p.b (by simp)⟩

/-- C8 witness: the report emitted by the 1×1 image. -/
theorem C8_channel_range_witness :
    (⟨0, 0, 255, 128, 0⟩ : Report).r ≤ 255 ∧
    (⟨0, 0, 255, 128, 0⟩ : Report).g ≤ 255 ∧
    (⟨0, 0, 255, 128, 0⟩ : Report).b ≤ 255 :=
  C8_channel_range oneByOne ⟨0, 0, 255, 128, 0⟩
    (by
      intro c chs h v hv
      injection h with h2
      subst h2
      simp only [List.mem_cons, List.not_mem_nil, or_false] at hv
      rcases hv with rfl | rfl | rfl <;> decide)
    (by decide)

/-- C9: when the reported width or height is 0, the loop body never
executes: zero lines are printed and the run ends without error. -/
theorem C9_empty_image (img : Image)
    (h : img.width = 0 ∨ img.height = 0) :
    iterate_and_report img = ([], none) ∧ stdoutLines img = [] ∧
    show_pixel_info (.ok img) = ([], none) := by
  have hc : coords img = [] := by
    rcases h with h | h
    · rw [coords, h, coordsOf_width_zero]
    · rw [coords, h, coordsOf_height_zero]
  refine ⟨?_, ?_, ?_⟩ <;>
    simp [show_pixel_info, stdoutLines, iterate_and_report, hc, reportFrom]

/-- C9 witness: a 0×3 image. -/
theorem C9_empty_image_witness :
    iterate_and_report zeroWidthImage = ([], none) ∧
    stdoutLines zeroWidthImage = [] ∧
    show_pixel_info (.ok zeroWidthImage) = ([], none) :=
  C9_empty_image zeroWidthImage (Or.inl rfl)

/-- C10: the iteration never modifies the image — the image threaded
through the loop comes out unchanged, also on a failing run — and on a
successful run `getpixel` is called exactly once per in-range
coordinate, in visitation order. -/
theorem C10_read_only (img : Image) (x y : Nat)
    (hok : ∀ c ∈ coords img, (step img c).isOk = true)
    (hx : x < img.width) (hy : y < img.height) :
    (runLoop img (coords img)).1 = img ∧
    (runLoop failAtImage (coords failAtImage)).1 = failAtImage ∧
    accessesFrom img (coords img) = coords img ∧
    (accessesFrom img (coords img)).count (x, y) = 1 := by
  refine ⟨runLoop_image _, runLoop_image _, accessesFrom_all_ok hok, ?_⟩
  rw [accessesFrom_all_ok hok]
  exact count_eq_one_of_mem_nodup (nodup_coordsOf _ _)
    ((@mem_coordsOf img.width img.height (x, y)).mpr ⟨hx, hy⟩)

/-- C10 witness: the 1×1 image, coordinate (0, 0). -/
theorem C10_read_only_witness :
    (runLoop oneByOne (coords oneByOne)).1 = oneByOne ∧
    (runLoop failAtImage (coords failAtImage)).1 = failAtImage ∧
    accessesFrom oneByOne (coords oneByOne) = coords oneByOne ∧
    (accessesFrom oneByOne (coords oneByOne)).count (0, 0) = 1 :=
  C10_read_only oneByOne 0 0 (by decide) (by decide) (by decide)

end ShowPixelInfo
